import Mathlib

/-!
# Verification of the PT slab strand-count optimizer

Shallow embedding of `pt_slab_optimization_commented.py`: geometry and load
constants, the tendon influence model, the control-point grid generator, the
feasibility precheck, the LP over continuous strand counts, and the
ceiling-rounding / re-verification stage, together with theorems settling the
spec claims about them.

Real-valued script quantities (Python floats) are modelled as `ℝ`; Python
`int(x)` on a non-negative float is modelled as `Int.floor`.
-/

namespace PTSlab

noncomputable section

open Real Finset

/-! ## Geometry and load parameters (script lines 10-35) -/

def Lx : ℝ := 8.0
def Ly : ℝ := 12.0
def t_slab : ℝ := 0.40

def gamma_concrete : ℝ := 25
def q_dead : ℝ := gamma_concrete * t_slab
def q_live : ℝ := 5.0
def q_total : ℝ := q_dead + q_live

def L : ℝ := Ly
def w : ℝ := q_total
def M : ℝ := w * L ^ 2 / 8

def b : ℝ := 1.0
def I : ℝ := (b * t_slab ^ 3) / 12
def y : ℝ := t_slab / 2

def M_Nmm : ℝ := M * 1e6
def I_mm4 : ℝ := I * 1e12
def y_mm : ℝ := y * 1e3
def sigma_max : ℝ := (M_Nmm * y_mm) / I_mm4

/-! ## Tendon parameters (script lines 42-55) -/

def tendon_spacing : ℝ := 1.0

/-- The array `np.arange(0.5, Lx - 0.5 + 1e-6, 1.0)` with `Lx = 8` has the 8 entries
`0.5, 1.5, ..., 7.5`. -/
def tendon_count : ℕ := 8

def tendon_x_positions (j : Fin tendon_count) : ℝ := 0.5 + (j : ℕ) * tendon_spacing

def cord_area : ℝ := 150
def n_cord_max : ℕ := 10
def sigma_u : ℝ := 1860
def prestress_ratio : ℝ := 0.7
def Ptendon : ℝ := cord_area * sigma_u * prestress_ratio / 1e3

def area_influence : ℝ := t_slab * 1.0
def stress_per_tendon : ℝ := (Ptendon / area_influence) / 1000

/-! ## Eccentricity profile (script lines 63-73) -/

def cover : ℝ := 0.05
def ecc_factor : ℝ := 1.0
def e_max : ℝ := t_slab / 2 - cover
def e_design : ℝ := ecc_factor * e_max

def tendon_profile (yv Lyv e0 : ℝ) : ℝ := 4 * e0 * (yv / Lyv) * (1 - yv / Lyv)

/-! ## Influence model (script lines 107-111) -/

def tendon_influence_with_eccentricity (xc x_cp y_cp : ℝ) (sigma : ℝ := 0.75) : ℝ :=
  let dx := |x_cp - xc|
  let infl_base := Real.exp (-(dx ^ 2) / (2 * sigma ^ 2))
  let ecc := tendon_profile y_cp Ly e_design
  infl_base * (1 + ecc / (t_slab / 2))

/-! ## Helper facts about the influence model -/

lemma e_design_eq : e_design = 3 / 20 := by
  simp only [e_design, ecc_factor, e_max, t_slab, cover]
  norm_num

lemma tendon_profile_nonneg {yv : ℝ} (h0 : 0 ≤ yv) (h1 : yv ≤ Ly) (e0 : ℝ)
    (he : 0 ≤ e0) : 0 ≤ tendon_profile yv Ly e0 := by
  rw [Ly] at h1
  norm_num at h1
  have hLy : (0:ℝ) < 12 := by norm_num
  have hu0 : 0 ≤ yv / 12 := by positivity
  have hu1 : yv / 12 ≤ 1 := by rw [div_le_one hLy]; exact h1
  simp only [tendon_profile, Ly]
  norm_num
  have h2 : (0:ℝ) ≤ 1 - yv / 12 := by linarith
  have h3 : (0:ℝ) ≤ 4 * e0 := by linarith
  exact mul_nonneg (mul_nonneg h3 hu0) h2

/-- Unfolding of the let-bindings in the influence function. -/
lemma influence_def (xc x_cp y_cp sigma : ℝ) :
    tendon_influence_with_eccentricity xc x_cp y_cp sigma =
      Real.exp (-(|x_cp - xc| ^ 2) / (2 * sigma ^ 2)) *
        (1 + tendon_profile y_cp Ly e_design / (t_slab / 2)) := rfl

/-- The eccentricity amplification factor, with all script constants
unfolded: `1 + 3·u·(1-u)` where `u = y/12`. -/
lemma influence_factor_eq (y_cp : ℝ) :
    1 + tendon_profile y_cp Ly e_design / (t_slab / 2) =
      1 + 3 * (y_cp / 12 * (1 - y_cp / 12)) := by
  simp only [tendon_profile, e_design, ecc_factor, e_max, t_slab, cover, Ly]
  norm_num
  ring

/-- The influence value, with all script constants unfolded:
a Gaussian in `dx` times `1 + 3·u·(1-u)` where `u = y/12`. -/
lemma influence_eq (xc x_cp y_cp : ℝ) :
    tendon_influence_with_eccentricity xc x_cp y_cp 0.75 =
      Real.exp (-(8 * (x_cp - xc) ^ 2 / 9)) *
        (1 + 3 * (y_cp / 12 * (1 - y_cp / 12))) := by
  rw [influence_def, influence_factor_eq, sq_abs]
  have h1 : -((x_cp - xc) ^ 2) / (2 * (0.75:ℝ) ^ 2) = -(8 * (x_cp - xc) ^ 2 / 9) := by
    rw [show (2 * (0.75:ℝ) ^ 2) = 9 / 8 by norm_num]
    ring
  rw [h1]

/-! ## Claim C5 -/

/-- C5:  For every tendon x-position `xc`, control point `(x, y)` and spread
`sigma`, the influence function returns
`exp(-dx²/(2σ²)) · (1 + profile(y)/(t_slab/2))` with `dx = |x - xc|`; and the
longitudinal profile evaluates to `0` at `y = 0` and `y = Ly`, and to the
design eccentricity at `y = Ly/2`. -/
theorem C5_influence_formula (xc x_cp y_cp sigma e0 : ℝ) :
    tendon_influence_with_eccentricity xc x_cp y_cp sigma =
      Real.exp (-(|x_cp - xc| ^ 2) / (2 * sigma ^ 2)) *
        (1 + tendon_profile y_cp Ly e_design / (t_slab / 2)) ∧
    tendon_profile 0 Ly e0 = 0 ∧
    tendon_profile Ly Ly e0 = 0 ∧
    tendon_profile (Ly / 2) Ly e0 = e0 := by
  refine ⟨influence_def xc x_cp y_cp sigma, ?_, ?_, ?_⟩
  · simp [tendon_profile]
  · simp only [tendon_profile, Ly]
    norm_num
  · simp only [tendon_profile, Ly]
    norm_num
    ring

/-! ## Claim C6 -/

/-- C6:  Influence-matrix entries are non-negative for every tendon position
and every control point with `y ∈ [0, Ly]`, and for fixed `y` the entry is
monotonically non-increasing in the lateral distance `|x - xc|` (the script's
spread `sigma = 0.75` is used, as in the matrix `A`). -/
theorem C6_influence_nonneg_mono (xc x₁ x₂ y_cp : ℝ)
    (h0 : 0 ≤ y_cp) (h1 : y_cp ≤ Ly) (hd : |x₁ - xc| ≤ |x₂ - xc|) :
    0 ≤ tendon_influence_with_eccentricity xc x₂ y_cp 0.75 ∧
    tendon_influence_with_eccentricity xc x₂ y_cp 0.75 ≤
      tendon_influence_with_eccentricity xc x₁ y_cp 0.75 := by
  have hfac : 0 ≤ 1 + tendon_profile y_cp Ly e_design / (t_slab / 2) := by
    have hp : 0 ≤ tendon_profile y_cp Ly e_design :=
      tendon_profile_nonneg h0 h1 e_design (by rw [e_design_eq]; norm_num)
    have ht : (0:ℝ) < t_slab / 2 := by simp only [t_slab]; norm_num
    positivity
  have hsq : |x₁ - xc| ^ 2 ≤ |x₂ - xc| ^ 2 := by
    have h1' : (0:ℝ) ≤ |x₁ - xc| := abs_nonneg _
    nlinarith
  have hker : Real.exp (-(|x₂ - xc| ^ 2) / (2 * (0.75:ℝ) ^ 2)) ≤
      Real.exp (-(|x₁ - xc| ^ 2) / (2 * (0.75:ℝ) ^ 2)) := by
    apply Real.exp_le_exp.mpr
    have hden : (0:ℝ) < 2 * (0.75:ℝ) ^ 2 := by norm_num
    exact (div_le_div_iff_of_pos_right hden).mpr (by linarith)
  constructor
  · rw [influence_def]
    exact mul_nonneg (Real.exp_pos _).le hfac
  · rw [influence_def, influence_def]
    exact mul_le_mul_of_nonneg_right hker hfac

/-- C6 witness: Concrete instance: tendon at `x = 1/2`, control points at
`x = 1` and `x = 3`, `y = 6`. -/
theorem C6_influence_nonneg_mono_wit :
    ((0:ℝ) ≤ 6 ∧ (6:ℝ) ≤ Ly ∧ |(1:ℝ) - 1/2| ≤ |(3:ℝ) - 1/2|) ∧
    (0 ≤ tendon_influence_with_eccentricity (1/2) 3 6 0.75 ∧
      tendon_influence_with_eccentricity (1/2) 3 6 0.75 ≤
        tendon_influence_with_eccentricity (1/2) 1 6 0.75) := by
  have h1 : (6:ℝ) ≤ Ly := by rw [Ly]; norm_num
  have ha : |(1:ℝ) - 1/2| = 1/2 := by
    rw [show (1:ℝ) - 1/2 = 1/2 by norm_num]
    exact abs_of_nonneg (by norm_num)
  have hb : |(3:ℝ) - 1/2| = 5/2 := by
    rw [show (3:ℝ) - 1/2 = 5/2 by norm_num]
    exact abs_of_nonneg (by norm_num)
  have h2 : |(1:ℝ) - 1/2| ≤ |(3:ℝ) - 1/2| := by rw [ha, hb]; norm_num
  exact ⟨⟨by norm_num, h1, h2⟩,
    C6_influence_nonneg_mono (1/2) 1 3 6 (by norm_num) h1 h2⟩

/-! ## Grid generator (script lines 81-94)

`int(x)` on the non-negative values arising here is `Int.floor`; the script's
"if even, increment" is `forceOdd`. -/

def forceOdd (n : ℤ) : ℤ := if n % 2 = 0 then n + 1 else n

def gridNy (P r : ℝ) : ℤ := forceOdd ⌊Real.sqrt (P / r)⌋

def gridNx (P : ℝ) (ny : ℤ) : ℤ := forceOdd ⌊P / (ny : ℝ)⌋

def Npc : ℕ := 10000
def aspect_ratio : ℝ := Lx / Ly
def Ny : ℤ := gridNy (Npc : ℝ) aspect_ratio
def Nx : ℤ := gridNx (Npc : ℝ) Ny

lemma forceOdd_odd (n : ℤ) : Odd (forceOdd n) := by
  unfold forceOdd
  rcases Int.emod_two_eq_zero_or_one n with h | h
  · rw [if_pos h]
    exact Int.odd_iff.mpr (by omega)
  · rw [if_neg (by omega)]
    exact Int.odd_iff.mpr h

lemma le_forceOdd (n : ℤ) : n ≤ forceOdd n := by
  unfold forceOdd
  split <;> omega

lemma forceOdd_le (n : ℤ) : forceOdd n ≤ n + 1 := by
  unfold forceOdd
  split <;> omega

lemma one_le_forceOdd {n : ℤ} (h : 0 ≤ n) : 1 ≤ forceOdd n := by
  unfold forceOdd
  rcases Int.emod_two_eq_zero_or_one n with h2 | h2
  · rw [if_pos h2]; omega
  · rw [if_neg (by omega)]; omega

lemma one_le_gridNy (P r : ℝ) : 1 ≤ gridNy P r :=
  one_le_forceOdd (Int.floor_nonneg.mpr (Real.sqrt_nonneg _))

/-! ## Claim C7 -/

/-- C7 counterexample: At `P = 2`, `r = 1` the generator returns
`Ny = 1`, `Nx = 3`, so `Nx·Ny = 3` deviates from `P = 2` by half of `P` —
a 50% relative deviation, not "a small relative tolerance" (the spec's own
scenario treats ≈0.4% as the expected scale). -/
theorem C7_grid_tolerance_cex :
    gridNy 2 1 = 1 ∧ gridNx 2 (gridNy 2 1) = 3 ∧
      (1/2 : ℝ) * 2 ≤ |((gridNx 2 (gridNy 2 1) * gridNy 2 1 : ℤ) : ℝ) - 2| := by
  have hsq : ⌊Real.sqrt (2 / 1)⌋ = 1 := by
    rw [Int.floor_eq_iff]
    constructor
    · rw [show ((1:ℤ):ℝ) = 1 by norm_num]
      rw [Real.le_sqrt (by norm_num) (by norm_num)]
      norm_num
    · rw [show ((1:ℤ):ℝ) + 1 = 2 by norm_num]
      rw [Real.sqrt_lt' (by norm_num)]
      norm_num
  have hNy : gridNy 2 1 = 1 := by
    rw [gridNy, hsq]
    rfl
  have hNx : gridNx 2 (gridNy 2 1) = 3 := by
    rw [hNy, gridNx]
    have : ⌊(2:ℝ) / ((1:ℤ):ℝ)⌋ = 2 := by norm_num
    rw [this]
    rfl
  refine ⟨hNy, hNx, ?_⟩
  rw [hNx, hNy]
  norm_num

/-- C7 amended: For every positive target point count `P` and positive
aspect ratio `r`, the generator returns `Nx` and `Ny` both odd, and the
product satisfies `|Nx·Ny - P| ≤ Ny` (so the relative deviation is bounded by
`Ny/P`, which is small in the intended regime `Ny ≪ P` but not universally). -/
theorem C7_grid_oddness (P r : ℝ) (hP : 0 < P) (hr : 0 < r) :
    Odd (gridNy P r) ∧ Odd (gridNx P (gridNy P r)) ∧
      |((gridNx P (gridNy P r) * gridNy P r : ℤ) : ℝ) - P| ≤
        ((gridNy P r : ℤ) : ℝ) := by
  refine ⟨forceOdd_odd _, forceOdd_odd _, ?_⟩
  set N : ℤ := gridNy P r with hN
  have hN1 : 1 ≤ N := one_le_gridNy P r
  have hNpos : (0:ℝ) < (N : ℝ) := by exact_mod_cast hN1.trans_lt' (by norm_num)
  set n0 : ℤ := ⌊P / (N : ℝ)⌋ with hn0
  have hfl : ((n0 : ℤ) : ℝ) ≤ P / (N : ℝ) := Int.floor_le _
  have hfu : P / (N : ℝ) < (n0 : ℝ) + 1 := Int.lt_floor_add_one _
  have hlow : (n0 : ℝ) * (N : ℝ) ≤ P := (le_div_iff₀ hNpos).mp hfl
  have hhigh : P < ((n0 : ℝ) + 1) * (N : ℝ) := (div_lt_iff₀ hNpos).mp hfu
  have hx1 : (n0 : ℝ) ≤ ((gridNx P N : ℤ) : ℝ) := by exact_mod_cast le_forceOdd n0
  have hx2 : ((gridNx P N : ℤ) : ℝ) ≤ (n0 : ℝ) + 1 := by exact_mod_cast forceOdd_le n0
  rw [abs_le]
  push_cast
  constructor
  · nlinarith
  · nlinarith

/-- C7 witness: The amended statement applied at `P = 3`, `r = 1`. -/
theorem C7_grid_oddness_wit :
    (0:ℝ) < 3 ∧ (0:ℝ) < 1 ∧
      (Odd (gridNy 3 1) ∧ Odd (gridNx 3 (gridNy 3 1)) ∧
        |((gridNx 3 (gridNy 3 1) * gridNy 3 1 : ℤ) : ℝ) - 3| ≤
          ((gridNy 3 1 : ℤ) : ℝ)) :=
  ⟨by norm_num, by norm_num, C7_grid_oddness 3 1 (by norm_num) (by norm_num)⟩

/-! ## The optimization pipeline (script lines 134-183), generic in the data

The script's global state (influence matrix, per-strand stress, target vector,
strand cap) is collected into a `Problem`; the external LP solver (cvxpy/ECOS)
is an opaque call, modelled by passing its terminal `SolverOutcome` (status
string and value vector) as an input to the pipeline. -/

structure Problem (ι κ : Type) where
  A : ι → κ → ℝ
  s : ℝ
  tgt : ι → ℝ
  cmax : ℝ

/-- Induced stress `A @ (n * s)` at control point `i` (script lines 135, 159, 174). -/
def inducedAt {ι κ : Type} [Fintype κ] (p : Problem ι κ) (n : κ → ℝ) (i : ι) : ℝ :=
  ∑ j, p.A i j * (n j * p.s)

/-- Induced stress with every tendon at the cap:
`A @ (x_all_active * stress_per_tendon)` (script lines 134-135). -/
def inducedFull {ι κ : Type} [Fintype κ] (p : Problem ι κ) (i : ι) : ℝ :=
  ∑ j, p.A i j * (p.cmax * p.s)

open Classical in
/-- Precheck violation count: `np.sum(induced_stress_full < load_vector)`
(script lines 138-139). -/
def nViolationsPre {ι κ : Type} [Fintype ι] [Fintype κ] (p : Problem ι κ) : ℕ :=
  (Finset.univ.filter fun i => inducedFull p i < p.tgt i).card

/-- The script's two fatal aborts: the `RuntimeError` raised by the precheck
(line 148) and the `ValueError` raised on a non-optimal solver status
(line 170), which carries the status string verbatim. -/
inductive RunError where
  | modelingInfeasible (nViolations : ℕ)
  | solverFailure (status : String)

/-- Terminal outcome of the opaque external LP solve: `problem.status` and
`n.value`. -/
structure SolverOutcome (κ : Type) where
  status : String
  value : κ → ℝ

/-- What the script produces past the solver gate: `x_opt`, the recomputed
induced and final stresses, and the post-rounding violation count
(script lines 172-183). -/
structure RunOutput (ι κ : Type) where
  x_opt : κ → ℤ
  induced_stress : ι → ℝ
  final_stress : ι → ℝ
  n_violations : ℕ

open Classical in
/-- Rounding and verification stage: `x_opt = np.ceil(n.value)`, recomputed
stresses, and the post-rounding violation count — which is only reported
(a warning), never raised (script lines 172-183). -/
def roundOutput {ι κ : Type} [Fintype ι] [Fintype κ] (p : Problem ι κ)
    (nval : κ → ℝ) : RunOutput ι κ where
  x_opt := fun j => ⌈nval j⌉
  induced_stress := inducedAt p fun j => ((⌈nval j⌉ : ℤ) : ℝ)
  final_stress := fun i => p.tgt i - inducedAt p (fun j => ((⌈nval j⌉ : ℤ) : ℝ)) i
  n_violations :=
    (Finset.univ.filter fun i =>
      inducedAt p (fun j => ((⌈nval j⌉ : ℤ) : ℝ)) i < p.tgt i).card

/-- Precheck gate (script lines 141-148): zero violations proceed, otherwise
the run aborts with the distinct infeasible-at-full-capacity error. -/
def precheckStage {ι κ : Type} [Fintype ι] [Fintype κ] (p : Problem ι κ) :
    Except RunError Unit :=
  if nViolationsPre p = 0 then .ok () else .error (.modelingInfeasible (nViolationsPre p))

/-- Solver-status gate plus rounding (script lines 169-183): any terminal
status other than `"optimal"` aborts with the status carried verbatim. -/
def solverStage {ι κ : Type} [Fintype ι] [Fintype κ] (p : Problem ι κ)
    (sol : SolverOutcome κ) : Except RunError (RunOutput ι κ) :=
  if sol.status = "optimal" then .ok (roundOutput p sol.value)
  else .error (.solverFailure sol.status)

/-- The whole pipeline: precheck gates the solver/rounding stages. -/
def pipeline {ι κ : Type} [Fintype ι] [Fintype κ] (p : Problem ι κ)
    (sol : SolverOutcome κ) : Except RunError (RunOutput ι κ) :=
  Except.bind (precheckStage p) fun _ => solverStage p sol

/-- The LP's feasible region (script lines 158-162):
`A @ (n * s) >= load`, `n >= 0`, `n <= n_cord_max`. -/
def lpFeasibleGen {ι κ : Type} [Fintype ι] [Fintype κ] (p : Problem ι κ)
    (n : κ → ℝ) : Prop :=
  (∀ i, p.tgt i ≤ inducedAt p n i) ∧ (∀ j, 0 ≤ n j) ∧ (∀ j, n j ≤ p.cmax)

/-- The LP objective `sum(n)` (script line 157). -/
def lpObjective {κ : Type} [Fintype κ] (n : κ → ℝ) : ℝ := ∑ j, n j

/-! ### Pipeline helper lemmas -/

lemma nViolationsPre_eq_zero_iff {ι κ : Type} [Fintype ι] [Fintype κ]
    (p : Problem ι κ) :
    nViolationsPre p = 0 ↔ ∀ i, p.tgt i ≤ inducedFull p i := by
  unfold nViolationsPre
  rw [Finset.card_eq_zero, Finset.filter_eq_empty_iff]
  constructor
  · intro h i
    exact not_lt.mp (h (Finset.mem_univ i))
  · intro h i _
    exact not_lt.mpr (h i)

lemma pipeline_of_infeasible {ι κ : Type} [Fintype ι] [Fintype κ]
    (p : Problem ι κ) (h : nViolationsPre p ≠ 0) (sol : SolverOutcome κ) :
    pipeline p sol = .error (.modelingInfeasible (nViolationsPre p)) := by
  simp [pipeline, precheckStage, h, Except.bind]

lemma pipeline_of_precheck_ok {ι κ : Type} [Fintype ι] [Fintype κ]
    (p : Problem ι κ) (h : nViolationsPre p = 0) (sol : SolverOutcome κ) :
    pipeline p sol = solverStage p sol := by
  simp [pipeline, precheckStage, h, Except.bind]

/-! ### Demo instances used by the witnesses -/

/-- A 1×1 problem whose precheck passes (`A = 1`, `s = 1`, target `1/4`,
cap `10`, so full-capacity induced stress is `10`). -/
def pDemo : Problem (Fin 1) (Fin 1) where
  A := fun _ _ => 1
  s := 1
  tgt := fun _ => 1/4
  cmax := 10

/-- A 1×1 problem whose precheck fails (`A = 0`, so induced stress `0 < 1`). -/
def pInfeasDemo : Problem (Fin 1) (Fin 1) where
  A := fun _ _ => 0
  s := 1
  tgt := fun _ => 1
  cmax := 1

/-- A solver outcome claiming optimality with the all-zero vector. -/
def solDemo : SolverOutcome (Fin 1) where
  status := "optimal"
  value := fun _ => 0

/-- A solver outcome with a non-optimal terminal status. -/
def solBadDemo : SolverOutcome (Fin 1) where
  status := "infeasible"
  value := fun _ => 0

lemma inducedFull_pDemo (i : Fin 1) : inducedFull pDemo i = 10 := by
  simp [inducedFull, pDemo]

lemma nViolationsPre_pDemo : nViolationsPre pDemo = 0 := by
  rw [nViolationsPre_eq_zero_iff]
  intro i
  rw [inducedFull_pDemo]
  show (1:ℝ)/4 ≤ 10
  norm_num

/-! ## Claim C1 -/

/-- C1:  For every influence matrix with non-negative entries, non-negative
per-strand stress, and continuous vector `n` meeting every stress constraint,
the ceiling-rounded vector induces at least as much stress at every control
point as `n` does, so no satisfied constraint is violated by rounding. -/
theorem C1_rounding_safety {ι κ : Type} [Fintype ι] [Fintype κ]
    (p : Problem ι κ) (hA : ∀ i j, 0 ≤ p.A i j) (hs : 0 ≤ p.s) (n : κ → ℝ)
    (hfeas : ∀ i, p.tgt i ≤ inducedAt p n i) (i : ι) :
    inducedAt p n i ≤ inducedAt p (fun j => ((⌈n j⌉ : ℤ) : ℝ)) i ∧
    p.tgt i ≤ inducedAt p (fun j => ((⌈n j⌉ : ℤ) : ℝ)) i := by
  have hmono : inducedAt p n i ≤ inducedAt p (fun j => ((⌈n j⌉ : ℤ) : ℝ)) i := by
    apply Finset.sum_le_sum
    intro j _
    have hceil : n j ≤ ((⌈n j⌉ : ℤ) : ℝ) := Int.le_ceil (n j)
    exact mul_le_mul_of_nonneg_left
      (mul_le_mul_of_nonneg_right hceil hs) (hA i j)
  exact ⟨hmono, (hfeas i).trans hmono⟩

/-- C1 witness: 1×1 instance with `n = 1/2`, target `1/4`. -/
theorem C1_rounding_safety_wit :
    ((∀ i j, 0 ≤ pDemo.A i j) ∧ (0:ℝ) ≤ pDemo.s ∧
      (∀ i, pDemo.tgt i ≤ inducedAt pDemo (fun _ => 1/2) i)) ∧
    (inducedAt pDemo (fun _ => 1/2) 0 ≤
        inducedAt pDemo (fun j => ((⌈(fun _ => (1/2:ℝ)) j⌉ : ℤ) : ℝ)) 0 ∧
      pDemo.tgt 0 ≤ inducedAt pDemo (fun j => ((⌈(fun _ => (1/2:ℝ)) j⌉ : ℤ) : ℝ)) 0) := by
  have hA : ∀ i j, 0 ≤ pDemo.A i j := fun i j => by simp [pDemo]
  have hs : (0:ℝ) ≤ pDemo.s := by simp [pDemo]
  have hfeas : ∀ i, pDemo.tgt i ≤ inducedAt pDemo (fun _ => 1/2) i := by
    intro i
    simp [inducedAt, pDemo]
    norm_num
  exact ⟨⟨hA, hs, hfeas⟩, C1_rounding_safety pDemo hA hs (fun _ => 1/2) hfeas 0⟩

/-! ## Claim C2 -/

/-- C2:  If any control point has full-capacity induced stress strictly
below target, the pipeline stops with the distinct infeasible-at-full-capacity
error whatever the solver would have returned (i.e. before the LP is solved);
with no violation it proceeds to the solver stage. -/
theorem C2_precheck_gate {ι κ : Type} [Fintype ι] [Fintype κ] (p : Problem ι κ) :
    ((∃ i, inducedFull p i < p.tgt i) →
      ∀ sol : SolverOutcome κ,
        pipeline p sol = .error (.modelingInfeasible (nViolationsPre p))) ∧
    ((∀ i, ¬ inducedFull p i < p.tgt i) →
      ∀ sol : SolverOutcome κ, pipeline p sol = solverStage p sol) := by
  constructor
  · intro hex sol
    apply pipeline_of_infeasible
    intro h0
    rcases hex with ⟨i, hi⟩
    exact absurd hi (not_lt.mpr ((nViolationsPre_eq_zero_iff p).mp h0 i))
  · intro hall sol
    apply pipeline_of_precheck_ok
    exact (nViolationsPre_eq_zero_iff p).mpr fun i => not_lt.mp (hall i)

/-- C2 witness: The failing branch at a 1×1 problem with zero influence
(the result is the distinct error, independent of the solver outcome). -/
theorem C2_precheck_gate_wit :
    (∃ i, inducedFull pInfeasDemo i < pInfeasDemo.tgt i) ∧
    pipeline pInfeasDemo solDemo =
      .error (.modelingInfeasible (nViolationsPre pInfeasDemo)) := by
  have hex : ∃ i, inducedFull pInfeasDemo i < pInfeasDemo.tgt i := by
    refine ⟨0, ?_⟩
    simp [inducedFull, pInfeasDemo]
  exact ⟨hex, (C2_precheck_gate pInfeasDemo).1 hex solDemo⟩

/-! ## Claim C3 -/

/-- C3:  If the precheck passes, the LP is feasible: the all-at-cap vector
satisfies the bounds and every stress constraint, so a feasible point exists
whenever the optimizer is reached. -/
theorem C3_precheck_implies_lp_feasible {ι κ : Type} [Fintype ι] [Fintype κ]
    (p : Problem ι κ) (hc : 0 ≤ p.cmax)
    (hpre : ∀ i, p.tgt i ≤ inducedFull p i) :
    lpFeasibleGen p (fun _ => p.cmax) := by
  refine ⟨fun i => ?_, fun j => hc, fun j => le_refl _⟩
  have : inducedAt p (fun _ => p.cmax) i = inducedFull p i := rfl
  rw [this]
  exact hpre i

/-- C3 witness: The all-at-cap point of the passing 1×1 demo problem. -/
theorem C3_precheck_implies_lp_feasible_wit :
    ((0:ℝ) ≤ pDemo.cmax ∧ (∀ i, pDemo.tgt i ≤ inducedFull pDemo i)) ∧
    lpFeasibleGen pDemo (fun _ => pDemo.cmax) := by
  have hc : (0:ℝ) ≤ pDemo.cmax := by simp [pDemo]
  have hpre : ∀ i, pDemo.tgt i ≤ inducedFull pDemo i := by
    intro i
    rw [inducedFull_pDemo]
    show (1:ℝ)/4 ≤ 10
    norm_num
  exact ⟨⟨hc, hpre⟩, C3_precheck_implies_lp_feasible pDemo hc hpre⟩

/-! ## Claim C4 -/

/-- C4:  Any terminal solver status other than `"optimal"` makes the run
fail with an error carrying that status verbatim, and the pipeline never
returns an output (never reaches rounding, verification or reporting). -/
theorem C4_solver_failure {ι κ : Type} [Fintype ι] [Fintype κ]
    (p : Problem ι κ) (sol : SolverOutcome κ) (h : sol.status ≠ "optimal") :
    solverStage p sol = .error (.solverFailure sol.status) ∧
    ∀ out : RunOutput ι κ, pipeline p sol ≠ .ok out := by
  constructor
  · simp [solverStage, h]
  · intro out hout
    unfold pipeline at hout
    cases hpc : precheckStage p with
    | error e => rw [hpc] at hout; simp [Except.bind] at hout
    | ok u => rw [hpc] at hout; simp [Except.bind, solverStage, h] at hout

/-- C4 witness: A solver outcome with status `"infeasible"` on the demo
problem: the pipeline surfaces exactly that status. -/
theorem C4_solver_failure_wit :
    solBadDemo.status ≠ "optimal" ∧
    solverStage pDemo solBadDemo = .error (.solverFailure solBadDemo.status) := by
  have h : solBadDemo.status ≠ "optimal" := by
    simp [solBadDemo]
  exact ⟨h, (C4_solver_failure pDemo solBadDemo h).1⟩

/-! ## Claim C9 -/

/-- C9:  When the precheck passed and the solver reported optimality, the
pipeline completes and returns the rounded output — the integer strand vector,
both stress vectors, and the post-rounding violation count — whatever that
violation count is; post-rounding violations are reported inside the output
(a warning), not raised as an error. -/
theorem C9_rounding_warning_nonfatal {ι κ : Type} [Fintype ι] [Fintype κ]
    (p : Problem ι κ) (sol : SolverOutcome κ)
    (hpre : nViolationsPre p = 0) (hst : sol.status = "optimal") :
    pipeline p sol = .ok (roundOutput p sol.value) ∧
    (roundOutput p sol.value).x_opt = fun j => ⌈sol.value j⌉ := by
  constructor
  · rw [pipeline_of_precheck_ok p hpre sol]
    simp [solverStage, hst]
  · rfl

/-- C9 witness: The demo problem with a (bogus) optimal all-zero solver
value: one constraint is violated after rounding, yet the pipeline still
completes with the output. -/
theorem C9_rounding_warning_nonfatal_wit :
    (nViolationsPre pDemo = 0 ∧ solDemo.status = "optimal") ∧
    0 < (roundOutput pDemo solDemo.value).n_violations ∧
    pipeline pDemo solDemo = .ok (roundOutput pDemo solDemo.value) := by
  have hviol : 0 < (roundOutput pDemo solDemo.value).n_violations := by
    unfold roundOutput
    rw [Finset.card_pos, Finset.filter_nonempty_iff]
    refine ⟨0, Finset.mem_univ 0, ?_⟩
    simp [inducedAt, pDemo, solDemo]
  exact ⟨⟨nViolationsPre_pDemo, rfl⟩, hviol,
    (C9_rounding_warning_nonfatal pDemo solDemo nViolationsPre_pDemo rfl).1⟩

/-! ## Claim C10 -/

/-- C10:  If the continuous solution obeys the LP bounds `0 ≤ n_j ≤ cmax`
with `cmax` an integer, every component of the ceiling-rounded strand vector
lies in `{0, …, cmax}`: rounding never leaves the bounds. -/
theorem C10_rounding_in_bounds {ι κ : Type} [Fintype ι] [Fintype κ]
    (p : Problem ι κ) (nval : κ → ℝ) (c : ℤ) (hc : p.cmax = (c : ℝ))
    (h0 : ∀ j, 0 ≤ nval j) (h1 : ∀ j, nval j ≤ p.cmax) (j : κ) :
    0 ≤ (roundOutput p nval).x_opt j ∧ (roundOutput p nval).x_opt j ≤ c := by
  constructor
  · exact Int.ceil_nonneg (h0 j)
  · apply Int.ceil_le.mpr
    rw [← hc]
    exact h1 j

/-- C10 witness: `n = 1/2` under cap `10` rounds to `1 ∈ {0, …, 10}`. -/
theorem C10_rounding_in_bounds_wit :
    (pDemo.cmax = ((10:ℤ) : ℝ) ∧ (∀ j : Fin 1, (0:ℝ) ≤ 1/2) ∧
      (∀ j : Fin 1, (1:ℝ)/2 ≤ pDemo.cmax)) ∧
    (0 ≤ (roundOutput pDemo (fun _ => 1/2)).x_opt 0 ∧
      (roundOutput pDemo (fun _ => 1/2)).x_opt 0 ≤ 10) := by
  have hc : pDemo.cmax = ((10:ℤ) : ℝ) := by simp [pDemo]
  have h0 : ∀ j : Fin 1, (0:ℝ) ≤ (fun _ : Fin 1 => (1:ℝ)/2) j := fun _ => by norm_num
  have h1 : ∀ j : Fin 1, (fun _ : Fin 1 => (1:ℝ)/2) j ≤ pDemo.cmax := fun _ => by
    simp [pDemo]
    norm_num
  exact ⟨⟨hc, fun j => by norm_num, fun j => h1 j⟩,
    C10_rounding_in_bounds pDemo (fun _ => 1/2) 10 hc h0 h1 0⟩

/-! ## The script's concrete problem instance (lines 93-127)

The grid sizes computed by the generator are `Nx = 81`, `Ny = 123` (proved in
`Ny_eq`, `Nx_eq` below); the linspace lattices and the concrete influence
matrix, target vector and LP are built on those index sets. Control points are
indexed by `(k, m) : Fin 81 × Fin 123`, matching the script's
outer-x/inner-y flattening. -/

/-- The lattice `np.linspace(0.5, Lx - 0.5, 81)`. -/
def x_control (k : Fin 81) : ℝ := 0.5 + (k : ℕ) * ((Lx - 0.5 - 0.5) / (81 - 1))

/-- The lattice `np.linspace(0.5, Ly - 0.5, 123)`. -/
def y_control (m : Fin 123) : ℝ := 0.5 + (m : ℕ) * ((Ly - 0.5 - 0.5) / (123 - 1))

/-- Script line 125: `yc = Ly / 2`. -/
def yc : ℝ := Ly / 2

/-- Script line 125 reassigns `b = Ly / 2` (shadowing the earlier strip
width); renamed here to keep both values. -/
def b_target : ℝ := Ly / 2

/-- The script's influence matrix, target vector, per-strand stress and strand
cap, collected (lines 113-127, 134, 156-162). -/
def theProblem : Problem (Fin 81 × Fin 123) (Fin tendon_count) where
  A := fun i j =>
    tendon_influence_with_eccentricity (tendon_x_positions j) (x_control i.1) (y_control i.2)
  s := stress_per_tendon
  tgt := fun i => sigma_max * (1 - ((y_control i.2 - yc) ^ 2 / b_target ^ 2))
  cmax := (n_cord_max : ℕ)

/-- The optimal value of the script's LP: the infimum of `sum(n)` over the
feasible region (script lines 156-166). -/
def lpValue : ℝ :=
  sInf (lpObjective '' {n : Fin tendon_count → ℝ | lpFeasibleGen theProblem n})

/-! ### Evaluating the script's constants -/

lemma sigma_max_eq : sigma_max = 81 / 8 := by
  simp only [sigma_max, M_Nmm, I_mm4, y_mm, M, I, y, w, L, b, q_total, q_dead,
    q_live, gamma_concrete, t_slab, Ly]
  norm_num

lemma stress_per_tendon_eq : stress_per_tendon = 1953 / 4000 := by
  simp only [stress_per_tendon, Ptendon, area_influence, cord_area, sigma_u,
    prestress_ratio, t_slab]
  norm_num

lemma A_eq (i : Fin 81 × Fin 123) (j : Fin tendon_count) :
    theProblem.A i j =
      Real.exp (-(8 * (x_control i.1 - tendon_x_positions j) ^ 2 / 9)) *
        (1 + 3 * (y_control i.2 / 12 * (1 - y_control i.2 / 12))) :=
  influence_eq _ _ _

lemma tgt_eq (i : Fin 81 × Fin 123) :
    theProblem.tgt i = (81 / 2) * (y_control i.2 / 12 * (1 - y_control i.2 / 12)) := by
  show sigma_max * (1 - ((y_control i.2 - yc) ^ 2 / b_target ^ 2)) = _
  rw [sigma_max_eq]
  simp only [yc, b_target, Ly]
  norm_num
  ring

lemma x_control_bounds (k : Fin 81) : 1/2 ≤ x_control k ∧ x_control k ≤ 15/2 := by
  have hk : ((k : ℕ) : ℝ) ≤ 80 := by
    exact_mod_cast Nat.lt_succ_iff.mp k.isLt
  have hk0 : (0:ℝ) ≤ ((k : ℕ) : ℝ) := Nat.cast_nonneg _
  have hx : x_control k = 1/2 + ((k : ℕ) : ℝ) * (7 / 80) := by
    unfold x_control
    simp only [Lx]
    norm_num
  rw [hx]
  constructor <;> nlinarith

lemma y_control_bounds (m : Fin 123) : 0 ≤ y_control m ∧ y_control m ≤ 12 := by
  have hm : ((m : ℕ) : ℝ) ≤ 122 := by
    exact_mod_cast Nat.lt_succ_iff.mp m.isLt
  have hm0 : (0:ℝ) ≤ ((m : ℕ) : ℝ) := Nat.cast_nonneg _
  have hy : y_control m = 1/2 + ((m : ℕ) : ℝ) * (11 / 122) := by
    unfold y_control
    simp only [Ly]
    norm_num
  rw [hy]
  constructor <;> nlinarith

/-! ### Grid sizes of the literal scenario -/

lemma Ny_eq : Ny = 123 := by
  have hval : ((Npc : ℕ) : ℝ) / aspect_ratio = 15000 := by
    simp only [Npc, aspect_ratio, Lx, Ly]
    norm_num
  have hfl : ⌊Real.sqrt (((Npc : ℕ) : ℝ) / aspect_ratio)⌋ = 122 := by
    rw [hval, Int.floor_eq_iff]
    constructor
    · rw [show ((122:ℤ):ℝ) = 122 by norm_num]
      rw [Real.le_sqrt (by norm_num) (by norm_num)]
      norm_num
    · rw [show ((122:ℤ):ℝ) + 1 = 123 by norm_num]
      rw [Real.sqrt_lt' (by norm_num)]
      norm_num
  rw [Ny, gridNy, hfl]
  norm_num [forceOdd]

lemma Nx_eq : Nx = 81 := by
  rw [Nx, Ny_eq, gridNx]
  have hfl : ⌊((Npc : ℕ) : ℝ) / ((123:ℤ) : ℝ)⌋ = 81 := by
    rw [Int.floor_eq_iff]
    constructor
    · rw [show ((81:ℤ):ℝ) = 81 by norm_num]
      rw [le_div_iff₀ (by norm_num)]
      simp only [Npc]
      norm_num
    · rw [show ((81:ℤ):ℝ) + 1 = 82 by norm_num]
      rw [div_lt_iff₀ (by norm_num)]
      simp only [Npc]
      norm_num
  rw [hfl]
  norm_num [forceOdd]

/-! ### Lower bound on the Gaussian kernel sum over the tendon row

For any `x ∈ [0.5, 7.5]` two adjacent tendons lie at distances `d` and `1 - d`
with `d ∈ [0, 1]`; by AM-GM on the two Gaussians and `d² + (1-d)² ≤ 1` the
kernel sum is at least `2·exp(-4/9) > 32/25`. -/

lemma exp_49_lt : Real.exp (4/9) < 25/16 := by
  have h9 : Real.exp (4/9) ^ (9:ℕ) = Real.exp 4 := by
    rw [← Real.exp_nat_mul]
    norm_num
  have h4 : Real.exp 4 < 55 := by
    have h14 : Real.exp 4 = Real.exp 1 ^ (4:ℕ) := by
      rw [← Real.exp_nat_mul]
      norm_num
    rw [h14]
    calc Real.exp 1 ^ (4:ℕ) < 2.7182818286 ^ (4:ℕ) :=
          pow_lt_pow_left₀ Real.exp_one_lt_d9 (Real.exp_pos 1).le (by norm_num)
      _ < 55 := by norm_num
  have h559 : Real.exp 4 < (25/16:ℝ) ^ (9:ℕ) := by
    refine h4.trans_le ?_
    norm_num
  by_contra hcon
  push_neg at hcon
  have hmono : (25/16:ℝ) ^ (9:ℕ) ≤ Real.exp (4/9) ^ (9:ℕ) :=
    pow_le_pow_left₀ (by norm_num) hcon 9
  rw [h9] at hmono
  linarith

lemma amgm_exp (a c : ℝ) :
    2 * Real.exp (-((a + c)/2)) ≤ Real.exp (-a) + Real.exp (-c) := by
  have ha : Real.exp (-a/2) ^ 2 = Real.exp (-a) := by
    rw [sq, ← Real.exp_add]
    congr 1
    ring
  have hc : Real.exp (-c/2) ^ 2 = Real.exp (-c) := by
    rw [sq, ← Real.exp_add]
    congr 1
    ring
  have hac : Real.exp (-a/2) * Real.exp (-c/2) = Real.exp (-((a + c)/2)) := by
    rw [← Real.exp_add]
    congr 1
    ring
  have h := two_mul_le_add_sq (Real.exp (-a/2)) (Real.exp (-c/2))
  calc 2 * Real.exp (-((a + c)/2))
      = 2 * Real.exp (-a/2) * Real.exp (-c/2) := by rw [← hac]; ring
    _ ≤ Real.exp (-a/2) ^ 2 + Real.exp (-c/2) ^ 2 := h
    _ = Real.exp (-a) + Real.exp (-c) := by rw [ha, hc]

lemma pair_lb {d : ℝ} (h0 : 0 ≤ d) (h1 : d ≤ 1) :
    32/25 ≤ Real.exp (-(8 * d^2 / 9)) + Real.exp (-(8 * (d - 1)^2 / 9)) := by
  have hsum : (8 * d^2 / 9 + 8 * (d - 1)^2 / 9) / 2 ≤ 4/9 := by
    nlinarith [mul_nonneg h0 (by linarith : (0:ℝ) ≤ 1 - d)]
  have hmono : Real.exp (-(4/9)) ≤ Real.exp (-((8 * d^2 / 9 + 8 * (d - 1)^2 / 9)/2)) :=
    Real.exp_le_exp.mpr (by linarith)
  have hGM := amgm_exp (8 * d^2 / 9) (8 * (d - 1)^2 / 9)
  have hlb : 32/25 ≤ 2 * Real.exp (-(4/9)) := by
    have hp : (0:ℝ) < Real.exp (4/9) := Real.exp_pos _
    have hneg : Real.exp (-(4/9)) = (Real.exp (4/9))⁻¹ := Real.exp_neg _
    rw [hneg, show (2:ℝ) * (Real.exp (4/9))⁻¹ = 2 / Real.exp (4/9) by ring,
      le_div_iff₀ hp]
    nlinarith [exp_49_lt]
  linarith

/-- Every point of `[0, n]` lies in a unit cell `[j, j+1]` with `j + 1 ≤ n`. -/
lemma exists_cell (x : ℝ) :
    ∀ n : ℕ, 1 ≤ n → 0 ≤ x → x ≤ (n : ℝ) →
      ∃ j : ℕ, j + 1 ≤ n ∧ (j : ℝ) ≤ x ∧ x ≤ (j : ℝ) + 1 := by
  intro n
  induction n with
  | zero => omega
  | succ m ih =>
    intro _ h0 h1
    by_cases hx : x ≤ (m : ℝ)
    · rcases Nat.eq_zero_or_pos m with hm | hm
      · subst hm
        refine ⟨0, by omega, by simpa using h0, ?_⟩
        simp only [Nat.cast_zero] at hx
        simp only [Nat.cast_zero]
        linarith
      · obtain ⟨j, hj, hj0, hj1⟩ := ih hm h0 hx
        exact ⟨j, by omega, hj0, hj1⟩
    · push_neg at hx
      refine ⟨m, by omega, hx.le, ?_⟩
      push_cast at h1 ⊢
      linarith

lemma K_lower (x : ℝ) (h0 : 1/2 ≤ x) (h1 : x ≤ 15/2) :
    32/25 ≤ ∑ j : Fin tendon_count,
      Real.exp (-(8 * (x - tendon_x_positions j) ^ 2 / 9)) := by
  obtain ⟨j, hj7, hjl, hjr⟩ :=
    exists_cell (x - 1/2) 7 (by norm_num) (by linarith) (by push_cast; linarith)
  set d : ℝ := x - 1/2 - (j : ℝ) with hd
  have hd0 : 0 ≤ d := by rw [hd]; linarith
  have hd1 : d ≤ 1 := by rw [hd]; linarith
  have hj8 : j < tendon_count := by
    simp only [tendon_count]
    omega
  have hj18 : j + 1 < tendon_count := by
    simp only [tendon_count]
    omega
  have hne : (⟨j, hj8⟩ : Fin tendon_count) ≠ ⟨j + 1, hj18⟩ := by
    simp [Fin.ext_iff]
  have hterm0 : x - tendon_x_positions ⟨j, hj8⟩ = d := by
    simp only [tendon_x_positions, tendon_spacing, hd]
    ring
  have hterm1 : x - tendon_x_positions ⟨j + 1, hj18⟩ = d - 1 := by
    simp only [tendon_x_positions, tendon_spacing, hd]
    push_cast
    ring
  have hsub : ({⟨j, hj8⟩, ⟨j + 1, hj18⟩} : Finset (Fin tendon_count)) ⊆
      Finset.univ := Finset.subset_univ _
  have hle := Finset.sum_le_sum_of_subset_of_nonneg hsub
    (fun t _ _ => (Real.exp_pos (-(8 * (x - tendon_x_positions t) ^ 2 / 9))).le)
  rw [Finset.sum_pair hne, hterm0, hterm1] at hle
  exact le_trans (pair_lb hd0 hd1) hle

/-! ### Per-control-point feasibility of the literal scenario -/

lemma point_core {K v c : ℝ} (hK : 32/25 ≤ K) (hv0 : 0 ≤ v) (hv1 : v ≤ 1/4)
    (hc : 19/2 ≤ c) :
    (81/2) * v ≤ K * ((1 + 3 * v) * (c * (1953/4000))) := by
  have h1 : (0:ℝ) ≤ 1 + 3 * v := by linarith
  have hA : 0 ≤ (K - 32/25) * ((1 + 3 * v) * c) :=
    mul_nonneg (by linarith) (mul_nonneg h1 (by linarith))
  have hB : 0 ≤ (c - 19/2) * (1 + 3 * v) :=
    mul_nonneg (by linarith) h1
  nlinarith [hA, hB]

/-- Any uniform strand vector with at least `9.5` strands per tendon meets the
stress constraint at every control point. -/
lemma point_ineq (i : Fin 81 × Fin 123) {c : ℝ} (hc : 19/2 ≤ c) :
    theProblem.tgt i ≤ inducedAt theProblem (fun _ => c) i := by
  obtain ⟨hx0, hx1⟩ := x_control_bounds i.1
  obtain ⟨hy0, hy1⟩ := y_control_bounds i.2
  set u : ℝ := y_control i.2 / 12 with hu
  have hu0 : 0 ≤ u := by rw [hu]; positivity
  have hu1 : u ≤ 1 := by rw [hu]; linarith [div_le_one_of_le₀ hy1 (by norm_num : (0:ℝ) ≤ 12)]
  have hv0 : 0 ≤ u * (1 - u) := mul_nonneg hu0 (by linarith)
  have hv1 : u * (1 - u) ≤ 1/4 := by nlinarith [sq_nonneg (u - 1/2)]
  have hK := K_lower (x_control i.1) hx0 hx1
  have hsum : inducedAt theProblem (fun _ => c) i =
      (∑ j : Fin tendon_count,
        Real.exp (-(8 * (x_control i.1 - tendon_x_positions j) ^ 2 / 9))) *
        ((1 + 3 * (u * (1 - u))) * (c * (1953/4000))) := by
    rw [inducedAt]
    rw [Finset.sum_mul]
    refine Finset.sum_congr rfl fun j _ => ?_
    rw [A_eq, show theProblem.s = 1953/4000 from stress_per_tendon_eq]
    rw [hu]
    ring
  rw [tgt_eq, hsum, hu]
  exact point_core hK hv0 hv1 hc

lemma precheck_passes_script (i : Fin 81 × Fin 123) :
    theProblem.tgt i ≤ inducedFull theProblem i := by
  have h := point_ineq i (c := ((n_cord_max : ℕ) : ℝ))
    (by norm_num [n_cord_max])
  exact h

lemma lpFeasible_uniform95 : lpFeasibleGen theProblem (fun _ => 19/2) := by
  refine ⟨fun i => point_ineq i le_rfl, fun j => by norm_num, fun j => ?_⟩
  show (19:ℝ)/2 ≤ ((n_cord_max : ℕ) : ℝ)
  norm_num [n_cord_max]

lemma lpObjective_uniform95 :
    lpObjective (fun _ : Fin tendon_count => (19:ℝ)/2) = 76 := by
  simp [lpObjective, Finset.sum_const, tendon_count]
  norm_num

lemma lpValue_le_76 : lpValue ≤ 76 := by
  have hbdd : BddBelow (lpObjective ''
      {n : Fin tendon_count → ℝ | lpFeasibleGen theProblem n}) := by
    refine ⟨0, ?_⟩
    rintro v ⟨n, hn, rfl⟩
    exact Finset.sum_nonneg fun j _ => hn.2.1 j
  have hmem : (76:ℝ) ∈ lpObjective ''
      {n : Fin tendon_count → ℝ | lpFeasibleGen theProblem n} :=
    ⟨fun _ => 19/2, lpFeasible_uniform95, lpObjective_uniform95⟩
  exact csInf_le hbdd hmem

/-! ## Claim C8 -/

/-- C8:  In the literal scenario (width 8, height 12, thickness 0.40,
tendons spaced 1.0 from 0.5 to 7.5, `P = 10000`, `r = 8/12`): the grid
generator yields `Ny = 123` (122 forced odd) and `Nx = 81`, both odd; the
precheck with `n_cord_max = 10` passes with zero violations; the LP is
feasible (the uniform 9.5-strand vector is a feasible point), and its optimal
objective is strictly below `tendon_count × 10 = 80`. -/
theorem C8_literal_scenario :
    Ny = 123 ∧ Odd Ny ∧ Nx = 81 ∧ Odd Nx ∧
    nViolationsPre theProblem = 0 ∧
    lpFeasibleGen theProblem (fun _ => 19/2) ∧
    lpValue < (tendon_count : ℕ) * ((n_cord_max : ℕ) : ℝ) := by
  refine ⟨Ny_eq, forceOdd_odd _, Nx_eq, forceOdd_odd _, ?_, lpFeasible_uniform95, ?_⟩
  · exact (nViolationsPre_eq_zero_iff theProblem).mpr precheck_passes_script
  · have h80 : ((tendon_count : ℕ) : ℝ) * ((n_cord_max : ℕ) : ℝ) = 80 := by
      norm_num [tendon_count, n_cord_max]
    rw [h80]
    linarith [lpValue_le_76]

end

end PTSlab
